import Mathlib

/-!
# Verification of the Trials `.mdl` decoding tool

A shallow embedding of `src/mdl_tool.py` (the binary decoding engine: header
parsing, LOD record parsing, geometry/face extraction, OBJ emission, and the
per-session control flow of `parse_mdl_file`), together with theorems settling
the specification claims.

Conventions of the embedding:

* A Python `bytes` object is a `List (Fin 256)`.
* `file.read(n)` is `pyRead`: it returns *up to* `n` bytes (fewer at EOF,
  never an error), and for a negative `n` it returns *all* remaining bytes,
  exactly as Python binary file objects do.
* `struct.unpack(fmt, b)` requires `b` to have exactly the size of `fmt` and
  raises `struct.error` otherwise; this is modelled by `Option` (`none` =
  exception).  All integer formats used by the tool (`'i'`, `'h'`, `'b'`,
  `'<h'`) are little-endian signed integers on the target platform and are
  decoded by `sintLE`.  The `'fff'` field (`unknown_vec3`) is kept as its raw
  12 bytes: the program only logs it and never uses the value.
* Python floats produced by `x_int / 256.0` are exact (an int16 divided by a
  power of two is exactly representable in an IEEE double), so coordinates
  are embedded as `ℚ`.
* `zlib.decompress` is external library code; the session is parametrised by
  a decompressor oracle `Bytes → Option Bytes` (`none` = `zlib.error`).
* Exceptions escaping `parse_mdl_file`'s `try` body are values of `PyErr`;
  files that were already written when an exception is raised persist, so the
  session result keeps the list of files written before the failure.
* `logger` calls at the default (INFO) level are modelled as a list of
  `LogMsg` values, one constructor per call site (DEBUG-level calls are
  suppressed by the default configuration and are not modelled).
-/

/-- A byte string (Python `bytes`): a list of bytes. -/
abbrev Bytes := List (Fin 256)

/-- Truncate a natural number into a byte. -/
def natToByte (n : ℕ) : Fin 256 := ⟨n % 256, Nat.mod_lt _ (by norm_num)⟩

/-- Little-endian unsigned value of a byte string. -/
def leVal : Bytes → ℕ
  | [] => 0
  | b :: rest => b.val + 256 * leVal rest

/-- Little-endian two's-complement signed value of a byte string: the meaning
of `struct.unpack` with formats `'b'`, `'h'`/`'<h'`, `'i'` applied to a byte
string of the matching width (the tool runs on a little-endian platform). -/
def sintLE (l : Bytes) : ℤ :=
  let u := leVal l
  if 2 * u < 2 ^ (8 * l.length) then (u : ℤ) else (u : ℤ) - 2 ^ (8 * l.length)

/-- `struct.unpack` of a single signed little-endian integer of width `n`:
`struct.error` (= `none`) unless the byte string has exactly `n` bytes. -/
def unpackExact (n : ℕ) (l : Bytes) : Option ℤ :=
  if l.length = n then some (sintLE l) else none

/-- Python `f.read(n)` on a binary file with remaining contents `rest`:
returns the bytes read and the remaining contents.  A short read is not an
error; a negative `n` reads everything (Python semantics). -/
def pyRead (n : ℤ) (rest : Bytes) : Bytes × Bytes :=
  if n < 0 then (rest, [])
  else (rest.take n.toNat, rest.drop n.toNat)

/-- `struct.unpack` applied to `f.read(n)` for a fixed width `n`: the read
itself cannot fail, but unpacking fails unless exactly `n` bytes came back. -/
def pyReadUnpack (n : ℕ) (rest : Bytes) : Option (Bytes × Bytes) :=
  let p := pyRead n rest
  if p.1.length = n then some p else none

/-- Little-endian encoding of an integer in `[-32768, 32767]` as 2 bytes
(helper for building concrete inputs, not part of the program). -/
def encodeI16 (v : ℤ) : Bytes :=
  [natToByte (v % 65536).toNat, natToByte ((v % 65536).toNat / 256)]

/-- Little-endian encoding of a natural number below `2 ^ 32` as 4 bytes
(helper for building concrete inputs, not part of the program). -/
def encodeI32 (n : ℕ) : Bytes :=
  [natToByte n, natToByte (n / 256), natToByte (n / 65536), natToByte (n / 16777216)]

/-- A byte string of `n` zero bytes (helper for concrete inputs). -/
def zeros (n : ℕ) : Bytes := List.replicate n 0

/-- Python `list(range(n))` for a possibly negative `n`, as integers. -/
def intRange (n : ℤ) : List ℤ := (List.range n.toNat).map (fun k => (k : ℤ))

/-- A decoded vertex position `(x, y, z)`.  The Python floats are exact here,
see the module comment. -/
abbrev Point := ℚ × ℚ × ℚ

/-- The coordinate conversion `x_int / 256.0` (src/mdl_tool.py lines
298-300): division of the signed 16-bit value by 256, which is exact in
double precision, embedded as the exact rational `v / 256`.  It is built with
`Rat.divInt` so that concrete instances evaluate inside the kernel;
`scale256_eq` below states that it is the rational division by 256. -/
def scale256 (v : ℤ) : ℚ := Rat.divInt v 256

/-- A face triple as stored by `extract_faces` (Python ints). -/
abbrev Face := ℤ × ℤ × ℤ

/-- The `while` loop of `extract_vertices` (src/mdl_tool.py lines 286-305),
acting on `geometry_data[offset:]`.  With `rest = geometry_data[offset:]` the
loop guard `offset + vertex_size <= len(geometry_data) + 4` (where
`vertex_size = 4 + 6 + 10 = 20`) is `16 ≤ rest.length`; the three
`struct.unpack('<h', ...)` calls read `rest[0:2]`, `rest[2:4]`, `rest[4:6]`;
each coordinate is the signed value divided by `256.0`; the loop then
advances by `offset += vertex_size`, i.e. drops 20 bytes.  `fuel` makes the
recursion structural; `extract_vertices` supplies enough fuel for the loop to
always run to its guard failure (proved below). -/
def extractVertexLoop : ℕ → Bytes → Option (List Point)
  | 0, _ => none
  | fuel + 1, rest =>
    if 16 ≤ rest.length then
      match unpackExact 2 (rest.take 2), unpackExact 2 ((rest.drop 2).take 2),
            unpackExact 2 ((rest.drop 4).take 2) with
      | some xi, some yi, some zi =>
        match extractVertexLoop fuel (rest.drop 20) with
        | some tl => some ((scale256 xi, scale256 yi, scale256 zi) :: tl)
        | none => none
      | _, _, _ => none
    else some []

/-- `extract_vertices` (src/mdl_tool.py lines 268-307): starts at
`offset = 4` and runs the loop above. -/
def extractVertices (geometry_data : Bytes) : Option (List Point) :=
  extractVertexLoop (geometry_data.length + 1) (geometry_data.drop 4)

/-- The `while` loop of `extract_faces` (src/mdl_tool.py lines 325-334),
acting on `face_data[offset:]`: guard `offset + 6 <= len(face_data)` is
`6 ≤ rest.length`; three `struct.unpack('h', ...)` reads of `rest[0:2]`,
`rest[2:4]`, `rest[4:6]`; the triple is stored with `+ 1` applied to each
component (`# OBJ format uses 1-based indices`); the loop advances by 6. -/
def extractFaceLoop : ℕ → Bytes → Option (List Face)
  | 0, _ => none
  | fuel + 1, rest =>
    if 6 ≤ rest.length then
      match unpackExact 2 (rest.take 2), unpackExact 2 ((rest.drop 2).take 2),
            unpackExact 2 ((rest.drop 4).take 2) with
      | some v1, some v2, some v3 =>
        match extractFaceLoop fuel (rest.drop 6) with
        | some tl => some ((v1 + 1, v2 + 1, v3 + 1) :: tl)
        | none => none
      | _, _, _ => none
    else some []

/-- `extract_faces` (src/mdl_tool.py lines 309-336). -/
def extractFaces (face_data : Bytes) : Option (List Face) :=
  extractFaceLoop (face_data.length + 1) face_data

/-! ## The OBJ emitter (`save_obj_file`, src/mdl_tool.py lines 338-360) -/

/-- Pad a decimal digit string on the left with zeros up to width `w`. -/
def padZeros (w : ℕ) (s : String) : String :=
  String.mk (List.replicate (w - s.length) '0') ++ s

/-- Round `a / b` (for `b > 0`) to the nearest natural number, ties to even:
the rounding used by Python's fixed-point float formatting. -/
def roundHalfEvenScaled (a b : ℕ) : ℕ :=
  let n := a / b
  let r := a % b
  if 2 * r < b then n
  else if b < 2 * r then n + 1
  else if n % 2 = 0 then n else n + 1

/-- Python `f"{x:.6f}"` for the exact rational value of the float `x`: the
magnitude is scaled by `10 ^ 6` and rounded half-to-even.  Python rounds the
exact binary value of the double being formatted, which for the coordinates
this tool formats *is* the rational itself (module comment), so this agrees
with Python on every value the program prints. -/
def fmt6 (x : ℚ) : String :=
  let r := roundHalfEvenScaled (x.num.natAbs * 1000000) x.den
  (if x.num < 0 then "-" else "") ++ toString (r / 1000000) ++ "." ++
    padZeros 6 (toString (r % 1000000))

/-- One `v ...` line of the OBJ file (line 356 of src/mdl_tool.py). -/
def vertexLine (p : Point) : String :=
  "v " ++ fmt6 p.1 ++ " " ++ fmt6 p.2.1 ++ " " ++ fmt6 p.2.2

/-- One `f ...` line of the OBJ file (line 360 of src/mdl_tool.py): the
face components are written with no transformation (`str` of the int). -/
def faceLine (t : Face) : String :=
  "f " ++ toString t.1 ++ " " ++ toString t.2.1 ++ " " ++ toString t.2.2

/-- The lines written by `save_obj_file` (src/mdl_tool.py lines 338-360):
three comment lines, a blank line (from the `\n\n`), the vertex lines, then
the face lines. -/
def objLines (lodIndex : ℤ) (vertices : List Point) (faces : List Face) : List String :=
  ("# OBJ file - LOD " ++ toString lodIndex) ::
  ("# Vertices: " ++ toString vertices.length) ::
  ("# Faces: " ++ toString faces.length) ::
  "" ::
  (vertices.map vertexLine ++ faces.map faceLine)

/-! ## Header and LOD record parsing -/

/-- The `header` dictionary built by `parse_header`
(src/mdl_tool.py lines 81-104). -/
structure Header where
  signature : Bytes
  marker1 : Bytes
  version : Bytes
  unknown1 : ℤ
  marker2 : Bytes
  lrs01 : Bytes
  lod_count : ℤ
deriving DecidableEq, Repr

/-- `OBJ_SIGNATURE = b'OBJ'` (src/mdl_tool.py line 9). -/
def objSignature : Bytes := [79, 66, 74]

/-- `parse_header` (src/mdl_tool.py lines 81-104): reads the fixed fields in
order.  `none` models a `struct.error` from one of the `struct.unpack('i', ...)`
calls when the file is too short; plain `f.read` fields may come back short
without error (Python semantics). -/
def parseHeader (input : Bytes) : Option (Header × Bytes) :=
  let p1 := pyRead 3 input
  let p2 := pyRead 1 p1.2
  let p3 := pyRead 5 p2.2
  match pyReadUnpack 4 p3.2 with
  | none => none
  | some p4 =>
    let p5 := pyRead 1 p4.2
    let p6 := pyRead 5 p5.2
    match pyReadUnpack 4 p6.2 with
    | none => none
    | some p7 =>
      some ({ signature := p1.1, marker1 := p2.1, version := p3.1,
              unknown1 := sintLE p4.1, marker2 := p5.1, lrs01 := p6.1,
              lod_count := sintLE p7.1 }, p7.2)

/-- The `lod_data` dictionary built by `read_lod_header`
(src/mdl_tool.py lines 169-229). -/
structure LodRecord where
  lod_marker : Bytes
  lr005 : Bytes
  unknown_vec3 : Bytes
  string_length : ℤ
  string_data : Bytes
  unknown_data1 : Bytes
  id_string_length : ℤ
  id_string : Bytes
  unknown_data2 : Bytes
  four_byte_value_count : ℤ
  unknown_data3 : Bytes
  compressed_geometry_data_len : ℤ
  compressed_geometry_data : Bytes
  unknown2 : ℤ
  compressed_face_data_len : ℤ
  compressed_face_data : Bytes
deriving DecidableEq, Repr

/-- `read_lod_header` (src/mdl_tool.py lines 169-229), field for field:

* `f.read(1)`, `f.read(5)` — marker and `LR005` tag (short reads allowed);
* `struct.unpack('fff', f.read(12))` — kept as 12 raw bytes, errors if short;
* `struct.unpack('i', f.read(4))` then `f.read(string_length)` — `string_data`;
  note the length is *not* validated: a short read is silently accepted, and a
  negative length makes `f.read` return all remaining bytes;
* `f.read(56)` — `unknown_data1`;
* `struct.unpack('h', f.read(2))` then `f.read(id_string_length)`;
* `f.read(7)` — `unknown_data2`;
* `struct.unpack('b', f.read(1))` — `four_byte_value_count` (signed byte);
* `f.read(four_byte_value_count * 4 + 2)` — `unknown_data3`; for a negative
  count the size expression is negative and Python reads everything;
* `struct.unpack('i', f.read(4))` then `f.read(len)` — geometry blob;
* `struct.unpack('i', f.read(4))` — `unknown2`;
* `struct.unpack('i', f.read(4))` then `f.read(len)` — face blob.

Returns the record and the remaining input; `none` models `struct.error`. -/
def readLodHeader (input : Bytes) : Option (LodRecord × Bytes) :=
  let p1 := pyRead 1 input
  let p2 := pyRead 5 p1.2
  match pyReadUnpack 12 p2.2 with
  | none => none
  | some p3 =>
  match pyReadUnpack 4 p3.2 with
  | none => none
  | some p4 =>
    let string_length := sintLE p4.1
    let p5 := pyRead string_length p4.2
    let p6 := pyRead 56 p5.2
    match pyReadUnpack 2 p6.2 with
    | none => none
    | some p7 =>
      let id_string_length := sintLE p7.1
      let p8 := pyRead id_string_length p7.2
      let p9 := pyRead 7 p8.2
      match pyReadUnpack 1 p9.2 with
      | none => none
      | some p10 =>
        let four_byte_value_count := sintLE p10.1
        let p11 := pyRead (four_byte_value_count * 4 + 2) p10.2
        match pyReadUnpack 4 p11.2 with
        | none => none
        | some p12 =>
          let compressed_geometry_data_len := sintLE p12.1
          let p13 := pyRead compressed_geometry_data_len p12.2
          match pyReadUnpack 4 p13.2 with
          | none => none
          | some p14 =>
          match pyReadUnpack 4 p14.2 with
          | none => none
          | some p15 =>
            let compressed_face_data_len := sintLE p15.1
            let p16 := pyRead compressed_face_data_len p15.2
            some ({ lod_marker := p1.1, lr005 := p2.1, unknown_vec3 := p3.1,
                    string_length := string_length, string_data := p5.1,
                    unknown_data1 := p6.1, id_string_length := id_string_length,
                    id_string := p8.1, unknown_data2 := p9.1,
                    four_byte_value_count := four_byte_value_count,
                    unknown_data3 := p11.1,
                    compressed_geometry_data_len := compressed_geometry_data_len,
                    compressed_geometry_data := p13.1,
                    unknown2 := sintLE p14.1,
                    compressed_face_data_len := compressed_face_data_len,
                    compressed_face_data := p16.1 }, p16.2)

/-! ## The decode session (`parse_mdl_file` + `process_lod`) -/

/-- One INFO/WARNING/ERROR `logger` call site of the modelled region, with the
values interpolated into its message (src/mdl_tool.py):

* `signatureWarning` — line 102 (`logger.warning` in `parse_header`);
* `headerInfo` — lines 113-120 (the `log_header_info` bundle);
* `processingLod i pos total` — line 63
  (`f"Processing LOD {lod_index} ({i+1}/{len(lod_indices)})..."`);
* `decompressError kind` — line 265 (`logger.error` in `decompress_data`);
* `lodProcessError i` — line 166 (`logger.error` in `process_lod`);
* `extractedVertices` / `extractedFaces` — lines 153-154;
* `savedObj` — line 159;
* `savedBinary path total geomLen faceLen` — lines 379-381 (the
  `save_binary_data` bundle);
* `processingComplete` — line 66. -/
inductive LogMsg where
  | signatureWarning (sig : Bytes)
  | headerInfo (h : Header)
  | processingLod (lodIndex : ℤ) (pos total : ℕ)
  | decompressError (kind : String)
  | lodProcessError (lodIndex : ℤ)
  | extractedVertices (n : ℕ)
  | extractedFaces (n : ℕ)
  | savedObj (path : String)
  | savedBinary (path : String) (total geomLen faceLen : ℕ)
  | processingComplete
deriving DecidableEq, Repr

/-- An exception escaping the `try` body of `parse_mdl_file`:

* `structError` — a `struct.error` from a short fixed-width `struct.unpack`;
* `mdlParseDecompress i` — the `MDLParseError` raised at line 167 when a
  payload of LOD number `i` fails to decompress;
* `noValidLodIndices c` — the `MDLParseError` raised at line 59 when the
  filtered selection is empty (`c` is the file's LOD count in the message). -/
inductive PyErr where
  | structError
  | mdlParseDecompress (lodIndex : ℤ)
  | noValidLodIndices (lodCount : ℤ)
deriving DecidableEq, Repr

/-- Whether the session's `try` body returned normally or raised. -/
inductive PyResult where
  | ok
  | raised (e : PyErr)
deriving DecidableEq, Repr

/-- A file written by the session: an OBJ text file (as its lines) or a raw
binary dump. -/
inductive OutFile where
  | objFile (path : String) (lines : List String)
  | binFile (path : String) (contents : Bytes)
deriving DecidableEq, Repr

/-- Observable outcome of a decode session: files written (in order; files
written before an exception persist on disk), the log, and the result. -/
structure SessionOut where
  files : List OutFile
  log : List LogMsg
  result : PyResult
deriving DecidableEq, Repr

/-- Prepend files and log entries produced before the rest of the session. -/
def SessionOut.emit (fs : List OutFile) (ls : List LogMsg) (s : SessionOut) : SessionOut :=
  ⟨fs ++ s.files, ls ++ s.log, s.result⟩

/-- The per-LOD loop of `parse_mdl_file` (src/mdl_tool.py lines 62-64), each
iteration being `process_lod` (lines 122-167): read the LOD record at the
cursor (note: the record is read from wherever the cursor currently is — the
requested index is only used for labels and file names), decompress both
payloads (a `zlib.error` is logged and re-raised as `MDLParseError`, which
aborts the session), extract vertices and faces, write the OBJ file and, if
`skip_binary` is false, the raw dump.

Arguments: `dec` — the decompressor oracle; `dir` — output directory;
`skipBinary`; `total = len(lod_indices)`; `rest` — remaining file bytes;
the list of requested indices; `pos` — the 1-based position in that list. -/
def processLods (dec : Bytes → Option Bytes) (dir : String) (skipBinary : Bool)
    (total : ℕ) : Bytes → List ℤ → ℕ → SessionOut
  | _, [], _ => ⟨[], [], .ok⟩
  | rest, i :: is, pos =>
    let logs0 := [LogMsg.processingLod i pos total]
    match readLodHeader rest with
    | none => ⟨[], logs0, .raised .structError⟩
    | some (r, rest') =>
      match dec r.compressed_geometry_data with
      | none => ⟨[], logs0 ++ [.decompressError "geometry", .lodProcessError i],
                 .raised (.mdlParseDecompress i)⟩
      | some g =>
        match dec r.compressed_face_data with
        | none => ⟨[], logs0 ++ [.decompressError "face", .lodProcessError i],
                   .raised (.mdlParseDecompress i)⟩
        | some fd =>
          match extractVertices g, extractFaces fd with
          | some vs, some fs =>
            let path := dir ++ "/lod_" ++ toString i ++ ".obj"
            let obj := OutFile.objFile path (objLines i vs fs)
            let logs1 := logs0 ++ [.extractedVertices vs.length,
                                   .extractedFaces fs.length, .savedObj path]
            let bin : List OutFile × List LogMsg :=
              if skipBinary then ([], [])
              else
                let bpath := dir ++ "/lod_" ++ toString i ++ "_decompressed.bin"
                ([OutFile.binFile bpath (g ++ fd)],
                 [LogMsg.savedBinary bpath (g.length + fd.length) g.length fd.length])
            SessionOut.emit (obj :: bin.1) (logs1 ++ bin.2)
              (processLods dec dir skipBinary total rest' is (pos + 1))
          | _, _ => ⟨[], logs0, .raised .structError⟩

/-- The `try` body of `parse_mdl_file` (src/mdl_tool.py lines 42-66), with
file opening and `os.makedirs` abstracted away: parse the header (emitting
the signature warning and the header info log), determine the requested LOD
indices — `none` (Python `None`) means all of `range(lod_count)`, an explicit
list is filtered to `0 <= i < lod_count` and an empty filtered list raises
`MDLParseError` (line 59) — then run the per-LOD loop and log completion. -/
def parseMdlFile (dec : Bytes → Option Bytes) (fileBytes : Bytes)
    (lodIndices : Option (List ℤ)) (dir : String) (skipBinary : Bool) : SessionOut :=
  match parseHeader fileBytes with
  | none => ⟨[], [], .raised .structError⟩
  | some (h, rest) =>
    let headLog :=
      (if h.signature = objSignature then [] else [LogMsg.signatureWarning h.signature])
      ++ [LogMsg.headerInfo h]
    match lodIndices with
    | none =>
      let idxs := intRange h.lod_count
      SessionOut.emit [] headLog
        (let s := processLods dec dir skipBinary idxs.length rest idxs 1
         ⟨s.files, s.log ++ (match s.result with | .ok => [.processingComplete] | _ => []),
          s.result⟩)
    | some l =>
      let idxs := l.filter (fun i => decide (0 ≤ i) && decide (i < h.lod_count))
      if idxs.isEmpty then
        ⟨[], headLog, .raised (.noValidLodIndices h.lod_count)⟩
      else
        SessionOut.emit [] headLog
          (let s := processLods dec dir skipBinary idxs.length rest idxs 1
           ⟨s.files, s.log ++ (match s.result with | .ok => [.processingComplete] | _ => []),
            s.result⟩)

/-! ## Concrete fixtures

Byte-level builders for containers exercised by the concrete theorems.  They
construct *inputs*; all decoding above is translated from the source. -/

/-- A serialized LOD record with empty name and id strings and zeroed opaque
blocks: marker (1) + tag (5) + vec3 (12) + string length 0 (4) + 56-byte
block + id length 0 (2) + 7-byte block + count byte `cnt` + trailing block
`trail` + geometry length bytes `glenB` + geometry region + unknown (4) +
face length bytes `flenB` + face region. -/
def mkLodBytes (cnt : Fin 256) (trail glenB geom flenB face : Bytes) : Bytes :=
  [0] ++ zeros 5 ++ zeros 12 ++ zeros 4 ++ zeros 56 ++ zeros 2 ++ zeros 7 ++
  [cnt] ++ trail ++ glenB ++ geom ++ zeros 4 ++ flenB ++ face

/-- A serialized file header with signature `b'OBJ'`, zeroed filler fields
and the given LOD count. -/
def mkHeaderBytes (count : ℕ) : Bytes :=
  objSignature ++ [0] ++ zeros 5 ++ zeros 4 ++ [0] ++ zeros 5 ++ encodeI32 count

/-- Decompressed geometry of the end-to-end scenario: 4 filler bytes, the
int16 triple `(256, 512, -256)`, 10 filler bytes. -/
def geoBytes0 : Bytes := zeros 4 ++ encodeI16 256 ++ encodeI16 512 ++ encodeI16 (-256) ++ zeros 10

/-- A second, distinguishable decompressed geometry: triple `(512, 512, 512)`. -/
def geoBytes1 : Bytes := zeros 4 ++ encodeI16 512 ++ encodeI16 512 ++ encodeI16 512 ++ zeros 10

/-- Decompressed face data encoding the single triple `(0, 0, 0)`. -/
def faceBytes0 : Bytes := zeros 6

/-- Decompressor oracle for the fixtures: blob `[1]` holds `geoBytes0`, blob
`[2]` holds `faceBytes0`, blob `[3]` holds `geoBytes1`, blob `[4]` holds
`faceBytes0`; anything else is a `zlib.error`. -/
def demoDec : Bytes → Option Bytes := fun b =>
  if b = [1] then some geoBytes0
  else if b = [2] then some faceBytes0
  else if b = [3] then some geoBytes1
  else if b = [4] then some faceBytes0
  else none

/-- Like `demoDec` but blob `[1]` (the first record's geometry) fails to
decompress. -/
def demoDecFail : Bytes → Option Bytes := fun b => if b = [1] then none else demoDec b

/-- Serialized record whose payload blobs are `[1]` (geometry) and `[2]`
(face), with `four_byte_value_count = 0` (2-byte trailing block). -/
def recBytes0 : Bytes := mkLodBytes 0 [0, 0] (encodeI32 1) [1] (encodeI32 1) [2]

/-- Serialized record whose payload blobs are `[3]` and `[4]`. -/
def recBytes1 : Bytes := mkLodBytes 0 [0, 0] (encodeI32 1) [3] (encodeI32 1) [4]

/-- A one-LOD container (the end-to-end scenario's container). -/
def fileBytes1 : Bytes := mkHeaderBytes 1 ++ recBytes0

/-- A two-LOD container with distinguishable records. -/
def fileBytes2 : Bytes := mkHeaderBytes 2 ++ recBytes0 ++ recBytes1

/-- The header value decoded from `mkHeaderBytes c` (for `c < 2 ^ 31`). -/
def mkHeader (c : ℕ) : Header :=
  { signature := objSignature, marker1 := [0], version := zeros 5, unknown1 := 0,
    marker2 := [0], lrs01 := zeros 5, lod_count := (c : ℤ) }

/-- The record value decoded from `recBytes0`. -/
def recValue0 : LodRecord :=
  { lod_marker := [0], lr005 := zeros 5, unknown_vec3 := zeros 12,
    string_length := 0, string_data := [], unknown_data1 := zeros 56,
    id_string_length := 0, id_string := [], unknown_data2 := zeros 7,
    four_byte_value_count := 0, unknown_data3 := [0, 0],
    compressed_geometry_data_len := 1, compressed_geometry_data := [1],
    unknown2 := 0, compressed_face_data_len := 1, compressed_face_data := [2] }

/-! ## Helper lemmas -/

theorem pyRead_exact (n : ℕ) (a b : Bytes) (h : a.length = n) :
    pyRead n (a ++ b) = (a, b) := by
  have : ¬ ((n : ℤ) < 0) := by omega
  simp only [pyRead, this, if_false, Int.toNat_natCast]
  exact Prod.ext (List.take_left' h) (List.drop_left' h)

theorem pyReadUnpack_exact (n : ℕ) (a b : Bytes) (h : a.length = n) :
    pyReadUnpack n (a ++ b) = some (a, b) := by
  simp only [pyReadUnpack, pyRead_exact n a b h, h, if_true]

theorem pyRead_short (n : ℕ) (l : Bytes) (h : l.length ≤ n) :
    pyRead n l = (l, []) := by
  have : ¬ ((n : ℤ) < 0) := by omega
  simp only [pyRead, this, if_false, Int.toNat_natCast]
  exact Prod.ext (List.take_of_length_le h) (List.drop_eq_nil_of_le h)

theorem unpackExact_of_length (n : ℕ) (l : Bytes) (h : l.length = n) :
    unpackExact n l = some (sintLE l) := by
  simp [unpackExact, h]

theorem leVal_lt (l : Bytes) : leVal l < 2 ^ (8 * l.length) := by
  induction l with
  | nil => simp [leVal]
  | cons b rest ih =>
    have hb : b.val < 256 := b.isLt
    simp only [leVal, List.length_cons]
    have : 2 ^ (8 * (rest.length + 1)) = 256 * 2 ^ (8 * rest.length) := by ring
    omega

theorem sintLE_encodeI16 (v : ℤ) (h1 : -32768 ≤ v) (h2 : v ≤ 32767) :
    sintLE (encodeI16 v) = v := by
  have hm : (0 : ℤ) ≤ v % 65536 := Int.emod_nonneg v (by norm_num)
  have hm' : v % 65536 < 65536 := Int.emod_lt_of_pos v (by norm_num)
  have hv : v % 65536 = if 0 ≤ v then v else v + 65536 := by
    split <;> omega
  simp only [sintLE, encodeI16, leVal, natToByte, List.length_cons, List.length_nil]
  have hu : (v % 65536).toNat < 65536 := by omega
  set u := (v % 65536).toNat with hudef
  have huv : (u : ℤ) = v % 65536 := by omega
  have : u % 256 + 256 * (u / 256 % 256 + 256 * 0) = u := by omega
  rw [this]
  norm_num
  split <;> omega

theorem encodeI16_length (v : ℤ) : (encodeI16 v).length = 2 := rfl

theorem sintLE_encodeI32 (n : ℕ) (h : n < 2 ^ 31) :
    sintLE (encodeI32 n) = n := by
  simp only [sintLE, encodeI32, leVal, natToByte, List.length_cons, List.length_nil]
  have : n % 256 + 256 * (n / 256 % 256 + 256 * (n / 65536 % 256 + 256 * (n / 16777216 % 256 + 256 * 0))) = n := by
    omega
  rw [this]
  norm_num
  omega

theorem encodeI32_length (n : ℕ) : (encodeI32 n).length = 4 := rfl

theorem extractVertexLoop_spec (fuel : ℕ) :
    ∀ rest : Bytes, rest.length < fuel →
      ∃ vs, extractVertexLoop fuel rest = some vs ∧ vs.length = (rest.length + 4) / 20 := by
  induction fuel with
  | zero => intro rest h; omega
  | succ n ih =>
    intro rest h
    by_cases hg : 16 ≤ rest.length
    · have hx : (rest.take 2).length = 2 := by
        simp only [List.length_take]; omega
      have hy : ((rest.drop 2).take 2).length = 2 := by
        simp only [List.length_take, List.length_drop]; omega
      have hz : ((rest.drop 4).take 2).length = 2 := by
        simp only [List.length_take, List.length_drop]; omega
      obtain ⟨tl, htl, hlen⟩ := ih (rest.drop 20)
        (by simp only [List.length_drop]; omega)
      refine ⟨(scale256 (sintLE (rest.take 2)), scale256 (sintLE ((rest.drop 2).take 2)),
               scale256 (sintLE ((rest.drop 4).take 2))) :: tl, ?_, ?_⟩
      · simp only [extractVertexLoop, hg, if_true,
          unpackExact_of_length 2 _ hx, unpackExact_of_length 2 _ hy,
          unpackExact_of_length 2 _ hz, htl]
      · simp only [List.length_cons, hlen, List.length_drop]
        omega
    · refine ⟨[], ?_, ?_⟩
      · simp only [extractVertexLoop, hg, if_false]
      · simp only [List.length_nil]
        omega

theorem extractFaceLoop_spec (fuel : ℕ) :
    ∀ rest : Bytes, rest.length < fuel →
      ∃ fs, extractFaceLoop fuel rest = some fs ∧ fs.length = rest.length / 6 := by
  induction fuel with
  | zero => intro rest h; omega
  | succ n ih =>
    intro rest h
    by_cases hg : 6 ≤ rest.length
    · have hx : (rest.take 2).length = 2 := by
        simp only [List.length_take]; omega
      have hy : ((rest.drop 2).take 2).length = 2 := by
        simp only [List.length_take, List.length_drop]; omega
      have hz : ((rest.drop 4).take 2).length = 2 := by
        simp only [List.length_take, List.length_drop]; omega
      obtain ⟨tl, htl, hlen⟩ := ih (rest.drop 6)
        (by simp only [List.length_drop]; omega)
      refine ⟨(sintLE (rest.take 2) + 1, sintLE ((rest.drop 2).take 2) + 1,
               sintLE ((rest.drop 4).take 2) + 1) :: tl, ?_, ?_⟩
      · simp only [extractFaceLoop, hg, if_true,
          unpackExact_of_length 2 _ hx, unpackExact_of_length 2 _ hy,
          unpackExact_of_length 2 _ hz, htl]
      · simp only [List.length_cons, hlen, List.length_drop]
        omega
    · refine ⟨[], ?_, ?_⟩
      · simp only [extractFaceLoop, hg, if_false]
      · simp only [List.length_nil]
        omega

theorem extractFaceLoop_congr (f1 : ℕ) :
    ∀ (f2 : ℕ) (rest : Bytes), rest.length < f1 → rest.length < f2 →
      extractFaceLoop f1 rest = extractFaceLoop f2 rest := by
  induction f1 with
  | zero => intro f2 rest h1 _; omega
  | succ n ih =>
    intro f2 rest h1 h2
    match f2 with
    | 0 => omega
    | m + 1 =>
      by_cases hg : 6 ≤ rest.length
      · have hr : (rest.drop 6).length < n := by
          simp only [List.length_drop]; omega
        have hr' : (rest.drop 6).length < m := by
          simp only [List.length_drop]; omega
        simp only [extractFaceLoop, hg, if_true, ih m (rest.drop 6) hr hr']
      · simp only [extractFaceLoop, hg, if_false]

theorem extractVertexLoop_succ (fuel : ℕ) (rest : Bytes) :
    extractVertexLoop (fuel + 1) rest
      = if 16 ≤ rest.length then
          match unpackExact 2 (rest.take 2), unpackExact 2 ((rest.drop 2).take 2),
                unpackExact 2 ((rest.drop 4).take 2) with
          | some xi, some yi, some zi =>
            match extractVertexLoop fuel (rest.drop 20) with
            | some tl => some ((scale256 xi, scale256 yi, scale256 zi) :: tl)
            | none => none
          | _, _, _ => none
        else some [] := rfl

theorem extractFaceLoop_succ (fuel : ℕ) (rest : Bytes) :
    extractFaceLoop (fuel + 1) rest
      = if 6 ≤ rest.length then
          match unpackExact 2 (rest.take 2), unpackExact 2 ((rest.drop 2).take 2),
                unpackExact 2 ((rest.drop 4).take 2) with
          | some v1, some v2, some v3 =>
            match extractFaceLoop fuel (rest.drop 6) with
            | some tl => some ((v1 + 1, v2 + 1, v3 + 1) :: tl)
            | none => none
          | _, _, _ => none
        else some [] := rfl

theorem extractVertexLoop_single (fuel : ℕ) (rest : Bytes) (h16 : rest.length = 16) :
    extractVertexLoop (fuel + 2) rest
      = some [(scale256 (sintLE (rest.take 2)), scale256 (sintLE ((rest.drop 2).take 2)),
               scale256 (sintLE ((rest.drop 4).take 2)))] := by
  have hg : 16 ≤ rest.length := by omega
  have hx : (rest.take 2).length = 2 := by simp only [List.length_take]; omega
  have hy : ((rest.drop 2).take 2).length = 2 := by
    simp only [List.length_take, List.length_drop]; omega
  have hz : ((rest.drop 4).take 2).length = 2 := by
    simp only [List.length_take, List.length_drop]; omega
  have h1 : extractVertexLoop (fuel + 1) (rest.drop 20) = some [] := by
    rw [List.drop_eq_nil_of_le (by omega), extractVertexLoop_succ]
    norm_num
  rw [show fuel + 2 = (fuel + 1) + 1 by omega, extractVertexLoop_succ, if_pos hg,
    unpackExact_of_length 2 _ hx, unpackExact_of_length 2 _ hy,
    unpackExact_of_length 2 _ hz, h1]

theorem scale256_eq (v : ℤ) : scale256 v = (v : ℚ) / 256 := by
  rw [scale256, Rat.divInt_eq_div]
  norm_num

theorem pyRead_zero (l : Bytes) : pyRead 0 l = ([], l) := by
  simp [pyRead]

theorem pyRead_one (c : Fin 256) (b : Bytes) : pyRead 1 (c :: b) = ([c], b) :=
  pyRead_exact 1 [c] b rfl

theorem pyReadUnpack_one (c : Fin 256) (b : Bytes) :
    pyReadUnpack 1 (c :: b) = some ([c], b) :=
  pyReadUnpack_exact 1 [c] b rfl

theorem pyReadUnpack_zeros (n : ℕ) (b : Bytes) :
    pyReadUnpack n (zeros n ++ b) = some (zeros n, b) :=
  pyReadUnpack_exact n (zeros n) b (List.length_replicate n 0)

theorem pyReadUnpack_encodeI32 (n : ℕ) (b : Bytes) :
    pyReadUnpack 4 (encodeI32 n ++ b) = some (encodeI32 n, b) :=
  pyReadUnpack_exact 4 (encodeI32 n) b (encodeI32_length n)

theorem pyRead_exact_int (n : ℤ) (a b : Bytes) (h0 : 0 ≤ n) (h : a.length = n.toNat) :
    pyRead n (a ++ b) = (a, b) := by
  simp only [pyRead, not_lt.2 h0, if_false]
  exact Prod.ext (List.take_left' h) (List.drop_left' h)

theorem leVal_zeros (n : ℕ) : leVal (zeros n) = 0 := by
  induction n with
  | zero => rfl
  | succ m ih =>
    simp only [zeros] at ih
    simp only [zeros, List.replicate_succ, leVal, Fin.val_zero, ih]

theorem sintLE_zeros (n : ℕ) : sintLE (zeros n) = 0 := by
  have h : 0 < 2 ^ (8 * (zeros n).length) := Nat.pos_pow_of_pos _ (by norm_num)
  simp only [sintLE, leVal_zeros]
  rw [if_pos (by omega)]
  rfl

/-- Computation of `read_lod_header` on a record serialized by `mkLodBytes`
with a nonnegative trailing-block count: every metadata field comes back as
built, the trailing block consumes exactly `N * 4 + 2` bytes, the geometry
blob is read from the bytes immediately after it, and the face-blob read is
whatever `f.read(compressed_face_data_len)` yields on the remaining tail. -/
theorem readLodHeader_mkLodBytes (cnt : Fin 256) (trail geom flenB tail : Bytes)
    (hc : 0 ≤ sintLE [cnt])
    (ht : trail.length = (sintLE [cnt] * 4 + 2).toNat)
    (hg : geom.length < 2 ^ 31) (hflen : flenB.length = 4) :
    readLodHeader (mkLodBytes cnt trail (encodeI32 geom.length) geom flenB tail)
      = some ({ lod_marker := [0], lr005 := zeros 5, unknown_vec3 := zeros 12,
                string_length := 0, string_data := [], unknown_data1 := zeros 56,
                id_string_length := 0, id_string := [], unknown_data2 := zeros 7,
                four_byte_value_count := sintLE [cnt], unknown_data3 := trail,
                compressed_geometry_data_len := (geom.length : ℤ),
                compressed_geometry_data := geom, unknown2 := 0,
                compressed_face_data_len := sintLE flenB,
                compressed_face_data := (pyRead (sintLE flenB) tail).1 },
              (pyRead (sintLE flenB) tail).2) := by
  have etrail : pyRead (sintLE [cnt] * 4 + 2)
      (trail ++ (encodeI32 geom.length ++ (geom ++ (zeros 4 ++ (flenB ++ tail)))))
      = (trail, encodeI32 geom.length ++ (geom ++ (zeros 4 ++ (flenB ++ tail)))) :=
    pyRead_exact_int _ _ _ (by omega) ht
  have egeom : pyRead ((geom.length : ℕ) : ℤ) (geom ++ (zeros 4 ++ (flenB ++ tail)))
      = (geom, zeros 4 ++ (flenB ++ tail)) :=
    pyRead_exact geom.length geom _ rfl
  have eflen : pyReadUnpack 4 (flenB ++ tail) = some (flenB, tail) :=
    pyReadUnpack_exact 4 flenB tail hflen
  have e5 : ∀ b : Bytes, pyRead (5 : ℤ) (zeros 5 ++ b) = (zeros 5, b) := fun b =>
    pyRead_exact 5 (zeros 5) b rfl
  have e56 : ∀ b : Bytes, pyRead (56 : ℤ) (zeros 56 ++ b) = (zeros 56, b) := fun b =>
    pyRead_exact 56 (zeros 56) b rfl
  have e7 : ∀ b : Bytes, pyRead (7 : ℤ) (zeros 7 ++ b) = (zeros 7, b) := fun b =>
    pyRead_exact 7 (zeros 7) b rfl
  simp only [readLodHeader, mkLodBytes, List.append_assoc, List.cons_append,
    List.nil_append, pyRead_one, pyReadUnpack_one, pyReadUnpack_zeros,
    pyRead_zero, sintLE_zeros, pyReadUnpack_encodeI32, sintLE_encodeI32 geom.length hg,
    e5, e56, e7, etrail, egeom, eflen]

/-! ## Claims about the LOD record reader -/

/-- Claim C4, counterexample: a record whose face-blob length prefix declares
100 bytes while only 3 bytes remain is decoded *successfully*: `f.read(100)`
silently returns the 3 remaining bytes, no `TruncatedInput` (or any) error is
raised, and the partially-read record is returned. -/
theorem c4_counterexample :
    (readLodHeader (mkLodBytes 0 [0, 0] (encodeI32 1) [9] (encodeI32 100) [1, 2, 3])).map
        (fun p => (p.1.compressed_face_data_len, p.1.compressed_face_data, p.2))
      = some (100, [1, 2, 3], []) := by
  decide

/-- Claim C4 as amended: declared lengths are not validated at all.  For any
record whose face-blob length prefix declares `d` bytes with fewer than `d`
bytes remaining, `read_lod_header` returns successfully, with the truncated
remainder as the blob and the declared length still recorded; a failure could
arise only later, as a `struct.error` from a short fixed-width field, never
as a `TruncatedInput` check before a read. -/
theorem c4_amended (d : ℕ) (geom shortFace : Bytes) (hd : d < 2 ^ 31)
    (hg : geom.length < 2 ^ 31) (hshort : shortFace.length < d) :
    readLodHeader (mkLodBytes 0 [0, 0] (encodeI32 geom.length) geom (encodeI32 d) shortFace)
      = some ({ lod_marker := [0], lr005 := zeros 5, unknown_vec3 := zeros 12,
                string_length := 0, string_data := [], unknown_data1 := zeros 56,
                id_string_length := 0, id_string := [], unknown_data2 := zeros 7,
                four_byte_value_count := 0, unknown_data3 := [0, 0],
                compressed_geometry_data_len := (geom.length : ℤ),
                compressed_geometry_data := geom, unknown2 := 0,
                compressed_face_data_len := (d : ℤ),
                compressed_face_data := shortFace }, []) := by
  rw [readLodHeader_mkLodBytes 0 [0, 0] geom (encodeI32 d) shortFace (by decide)
      (by decide) hg (encodeI32_length d),
    sintLE_encodeI32 d hd, pyRead_short d shortFace (le_of_lt hshort)]
  rfl

/-- Claim C4, witness for the amended theorem at `d = 100`, a 1-byte
geometry blob and a 3-byte remainder. -/
theorem c4_amended_witness :
    readLodHeader (mkLodBytes 0 [0, 0] (encodeI32 1) [9] (encodeI32 100) [1, 2, 3])
      = some ({ lod_marker := [0], lr005 := zeros 5, unknown_vec3 := zeros 12,
                string_length := 0, string_data := [], unknown_data1 := zeros 56,
                id_string_length := 0, id_string := [], unknown_data2 := zeros 7,
                four_byte_value_count := 0, unknown_data3 := [0, 0],
                compressed_geometry_data_len := 1,
                compressed_geometry_data := [9], unknown2 := 0,
                compressed_face_data_len := 100,
                compressed_face_data := [1, 2, 3] }, []) :=
  c4_amended 100 [9] [1, 2, 3] (by decide) (by decide) (by decide)

/-- Claim C6, counterexample: with trailing count byte `255` (signed value
`N = -1`) the size expression `N * 4 + 2 = -2` is negative, so Python's
`f.read` consumes *all* remaining bytes rather than `N * 4 + 2` bytes; the
very next fixed-width unpack then hits EOF and decoding fails, even though
the record continues with a perfectly well-formed geometry/face section. -/
theorem c6_counterexample :
    readLodHeader (mkLodBytes 255 [] (encodeI32 1) [9] (encodeI32 1) [8]) = none
    ∧ sintLE [255] = -1 := by
  decide

/-- Claim C6 as amended: for every *nonnegative* signed trailing count `N`,
the decoder consumes exactly `N * 4 + 2` bytes, retains them as the opaque
`unknown_data3` field, and is then positioned at the geometry blob's length
prefix (the geometry and face blobs decode from exactly the following bytes).
For negative `N` this fails: the negative read consumes all remaining input
(see the counterexample). -/
theorem c6_amended (cnt : Fin 256) (trail geom face extra : Bytes)
    (hc : 0 ≤ sintLE [cnt])
    (ht : trail.length = (sintLE [cnt] * 4 + 2).toNat)
    (hg : geom.length < 2 ^ 31) (hf : face.length < 2 ^ 31) :
    readLodHeader
        (mkLodBytes cnt trail (encodeI32 geom.length) geom (encodeI32 face.length) (face ++ extra))
      = some ({ lod_marker := [0], lr005 := zeros 5, unknown_vec3 := zeros 12,
                string_length := 0, string_data := [], unknown_data1 := zeros 56,
                id_string_length := 0, id_string := [], unknown_data2 := zeros 7,
                four_byte_value_count := sintLE [cnt], unknown_data3 := trail,
                compressed_geometry_data_len := (geom.length : ℤ),
                compressed_geometry_data := geom, unknown2 := 0,
                compressed_face_data_len := (face.length : ℤ),
                compressed_face_data := face }, extra) := by
  rw [readLodHeader_mkLodBytes cnt trail geom (encodeI32 face.length) (face ++ extra)
      hc ht hg (encodeI32_length _),
    sintLE_encodeI32 face.length hf, pyRead_exact face.length face extra rfl]

/-- Claim C6, witness for the amended theorem at `N = 1` (a 6-byte trailing
block), with one trailing byte of further input left over. -/
theorem c6_amended_witness :
    readLodHeader
        (mkLodBytes 1 [1, 2, 3, 4, 5, 6] (encodeI32 1) [9] (encodeI32 1) ([8] ++ [7]))
      = some ({ lod_marker := [0], lr005 := zeros 5, unknown_vec3 := zeros 12,
                string_length := 0, string_data := [], unknown_data1 := zeros 56,
                id_string_length := 0, id_string := [], unknown_data2 := zeros 7,
                four_byte_value_count := 1, unknown_data3 := [1, 2, 3, 4, 5, 6],
                compressed_geometry_data_len := 1,
                compressed_geometry_data := [9], unknown2 := 0,
                compressed_face_data_len := 1,
                compressed_face_data := [8] }, [7]) :=
  c6_amended 1 [1, 2, 3, 4, 5, 6] [9] [8] [7] (by decide) (by decide) (by decide) (by decide)

/-! ## Claims about the extractors -/

/-- Claim C2, counterexample: on a decompressed geometry byte string of
length `L = 36` the vertex extractor returns exactly 1 position, while the
claimed count is `⌊(36 − 4) / 16⌋ = 2`.  (The loop stride in the source is
`vertex_size = 4 + 6 + 10 = 20` bytes, not 16.) -/
theorem c2_counterexample :
    (extractVertices (zeros 36)).map List.length = some 1 ∧ ((36 : ℕ) - 4) / 16 = 2 := by
  decide

/-- Claim C2 as amended: for every decompressed geometry byte string, the
vertex extractor succeeds and returns exactly `⌊L / 20⌋` positions: the loop
consumes 20-byte per-vertex strides (coordinates read at stride offset +4)
and its guard `offset + 20 ≤ L + 4` holds exactly while a full 20-byte
stride remains. -/
theorem c2_amended (g : Bytes) :
    ∃ vs, extractVertices g = some vs ∧ vs.length = g.length / 20 := by
  obtain ⟨vs, h1, h2⟩ := extractVertexLoop_spec (g.length + 1) (g.drop 4)
    (by simp only [List.length_drop]; omega)
  refine ⟨vs, h1, ?_⟩
  rw [h2]
  simp only [List.length_drop]
  omega

/-- Claim C10 (confirmed): for every input byte string, the vertex extractor
and the face extractor return normally (`isSome`): every slice the loops
unpack is exactly 2 bytes long because the loop guards bound the offsets, so
no `struct.error` can occur, and no precondition on the bytes is needed. -/
theorem c10_extractors_total (g fd : Bytes) :
    (extractVertices g).isSome ∧ (extractFaces fd).isSome := by
  obtain ⟨vs, h1, -⟩ := extractVertexLoop_spec (g.length + 1) (g.drop 4)
    (by simp only [List.length_drop]; omega)
  obtain ⟨fs, h2, -⟩ := extractFaceLoop_spec (fd.length + 1) fd (by omega)
  constructor
  · rw [extractVertices, h1]; rfl
  · rw [extractFaces, h2]; rfl

/-- Claim C5, counterexample: the face extractor applied to six zero bytes
(decoded int16 triple `(0, 0, 0)`) returns the triple `(1, 1, 1)`, not the
unmodified decoded integers: re-basing to 1-based indices happens inside
`extract_faces` (line 331), not at text-serialization time. -/
theorem c5_counterexample :
    extractFaces (zeros 6) = some [(1, 1, 1)] ∧ sintLE [0, 0] = 0 := by
  decide

/-- Claim C5 as amended: `extract_faces` itself stores `decoded + 1` for each
component (first conjunct: the head triple of the output is the three decoded
little-endian int16 values each plus one), and the mesh emitter then writes
the stored face triples with no further transformation (second conjunct: the
face lines of the OBJ file are exactly `f a b c` for the stored triples). -/
theorem c5_amended (b0 b1 b2 b3 b4 b5 : Fin 256) (rest : Bytes) (i : ℤ)
    (vs : List Point) (fs : List Face) :
    extractFaces (b0 :: b1 :: b2 :: b3 :: b4 :: b5 :: rest)
      = (extractFaces rest).map
          (fun tl => (sintLE [b0, b1] + 1, sintLE [b2, b3] + 1, sintLE [b4, b5] + 1) :: tl)
    ∧ (objLines i vs fs).drop (4 + vs.length) = fs.map faceLine := by
  constructor
  · have hlen : (b0 :: b1 :: b2 :: b3 :: b4 :: b5 :: rest).length = rest.length + 6 := by
      simp only [List.length_cons]
    have hg : 6 ≤ (b0 :: b1 :: b2 :: b3 :: b4 :: b5 :: rest).length := by
      rw [hlen]
      omega
    have ht1 : (b0 :: b1 :: b2 :: b3 :: b4 :: b5 :: rest).take 2 = [b0, b1] := rfl
    have ht2 : ((b0 :: b1 :: b2 :: b3 :: b4 :: b5 :: rest).drop 2).take 2 = [b2, b3] := rfl
    have ht3 : ((b0 :: b1 :: b2 :: b3 :: b4 :: b5 :: rest).drop 4).take 2 = [b4, b5] := rfl
    have hd6 : (b0 :: b1 :: b2 :: b3 :: b4 :: b5 :: rest).drop 6 = rest := rfl
    have hcongr : extractFaceLoop (rest.length + 6) rest = extractFaceLoop (rest.length + 1) rest :=
      extractFaceLoop_congr (rest.length + 6) (rest.length + 1) rest (by omega) (by omega)
    rw [extractFaces, hlen, extractFaceLoop_succ, if_pos hg, ht1, ht2, ht3, hd6,
      unpackExact_of_length 2 [b0, b1] rfl, unpackExact_of_length 2 [b2, b3] rfl,
      unpackExact_of_length 2 [b4, b5] rfl, hcongr,
      show extractFaceLoop (rest.length + 1) rest = extractFaces rest from rfl]
    cases extractFaces rest <;> rfl
  · rw [objLines,
      show ("# OBJ file - LOD " ++ toString i) ::
        ("# Vertices: " ++ toString vs.length) ::
        ("# Faces: " ++ toString fs.length) :: "" ::
        (vs.map vertexLine ++ fs.map faceLine)
        = [("# OBJ file - LOD " ++ toString i), ("# Vertices: " ++ toString vs.length),
           ("# Faces: " ++ toString fs.length), ""] ++ (vs.map vertexLine ++ fs.map faceLine)
        from rfl,
      show 4 + vs.length
        = [("# OBJ file - LOD " ++ toString i), ("# Vertices: " ++ toString vs.length),
           ("# Faces: " ++ toString fs.length), ""].length + vs.length from rfl,
      List.drop_append, List.drop_left' (List.length_map vs vertexLine)]

/-- Claim C7 (confirmed): a geometry byte string consisting of a 4-byte
region, the 2-byte little-endian encoding of an int16 value `v`, and 14
further bytes decodes to a single vertex whose first coordinate is exactly
`v / 256` (as a rational — the Python float arithmetic is exact here). -/
theorem c7_scale_exact (v : ℤ) (pre pad : Bytes) (hpre : pre.length = 4)
    (hpad : pad.length = 14) (h1 : -32768 ≤ v) (h2 : v ≤ 32767) :
    (extractVertices (pre ++ encodeI16 v ++ pad)).map (List.map (fun p => p.1))
      = some [(v : ℚ) / 256] := by
  have hlen : (pre ++ encodeI16 v ++ pad).length = 20 := by
    simp only [List.length_append, hpre, hpad, encodeI16_length]
  have hdrop : (pre ++ encodeI16 v ++ pad).drop 4 = encodeI16 v ++ pad := by
    rw [List.append_assoc]
    exact List.drop_left' hpre
  have hrlen : (encodeI16 v ++ pad).length = 16 := by
    simp only [List.length_append, hpad, encodeI16_length]
  rw [extractVertices, hlen, hdrop, show (20 : ℕ) + 1 = 19 + 2 by omega,
    extractVertexLoop_single 19 _ hrlen,
    List.take_left' (encodeI16_length v), sintLE_encodeI16 v h1 h2, scale256_eq]
  rfl

/-- Claim C7, witness: the boundary int16 values `32767` and `-32768` decode
to exactly `127.99609375` and `-128.0`. -/
theorem c7_scale_exact_witness :
    (extractVertices (zeros 4 ++ encodeI16 32767 ++ zeros 14)).map (List.map (fun p => p.1))
        = some [(127.99609375 : ℚ)]
    ∧ (extractVertices (zeros 4 ++ encodeI16 (-32768) ++ zeros 14)).map (List.map (fun p => p.1))
        = some [(-128.0 : ℚ)] := by
  constructor
  · rw [c7_scale_exact 32767 (zeros 4) (zeros 14) (by decide) (by decide)
      (by decide) (by decide)]
    norm_num
  · rw [c7_scale_exact (-32768) (zeros 4) (zeros 14) (by decide) (by decide)
      (by decide) (by decide)]
    norm_num

/-! ## Claims about the decode session -/

theorem processLods_no_invalid_selection (dec : Bytes → Option Bytes) (dir : String)
    (skipBinary : Bool) (total : ℕ) :
    ∀ (idxs : List ℤ) (rest : Bytes) (pos : ℕ) (c : ℤ),
      (processLods dec dir skipBinary total rest idxs pos).result
        ≠ PyResult.raised (PyErr.noValidLodIndices c) := by
  intro idxs
  induction idxs with
  | nil => intro rest pos c; simp [processLods]
  | cons i is ih =>
    intro rest pos c
    simp only [processLods]
    split
    · simp
    · split
      · simp
      · split
        · simp
        · split
          · simp only [SessionOut.emit]
            exact ih _ _ _
          · simp

/-- Claim C3, counterexample: on a two-LOD container whose *first* record's
geometry payload fails to decompress, requesting all LODs, the session aborts
with the `MDLParseError` raised by `process_lod`: no files at all are
written, and in particular the second LOD record is never decoded (no
`processingLod 1` log entry exists), contradicting the claim that the
session continues with subsequent LOD records. -/
theorem c3_counterexample :
    parseMdlFile demoDecFail fileBytes2 none "out" true
      = ⟨[], [.headerInfo (mkHeader 2), .processingLod 0 1 2,
              .decompressError "geometry", .lodProcessError 0],
         .raised (.mdlParseDecompress 0)⟩ := by
  decide

/-- Claim C3 as amended: a decompression failure on a LOD's geometry payload
raises `MDLParseError` and aborts the *whole session*: the failed LOD and
every requested LOD after it produce no output (only files written for LODs
processed before the failure persist).  The session does not continue to
subsequent LOD records. -/
theorem c3_amended (dec : Bytes → Option Bytes) (dir : String) (skipBinary : Bool)
    (total : ℕ) (rest rest' : Bytes) (i : ℤ) (is : List ℤ) (pos : ℕ) (r : LodRecord)
    (hread : readLodHeader rest = some (r, rest'))
    (hfail : dec r.compressed_geometry_data = none) :
    processLods dec dir skipBinary total rest (i :: is) pos
      = ⟨[], [.processingLod i pos total, .decompressError "geometry", .lodProcessError i],
         .raised (.mdlParseDecompress i)⟩ := by
  simp only [processLods, hread, hfail]
  rfl

/-- Claim C3, witness for the amended theorem: the two-record container with
a failing first geometry blob, requested selection `[0, 1]`. -/
theorem c3_amended_witness :
    processLods demoDecFail "out" true 2 (recBytes0 ++ recBytes1) [0, 1] 1
      = ⟨[], [.processingLod 0 1 2, .decompressError "geometry", .lodProcessError 0],
         .raised (.mdlParseDecompress 0)⟩ :=
  c3_amended demoDecFail "out" true 2 (recBytes0 ++ recBytes1) recBytes1 0 [1] 1
    recValue0 (by decide) (by decide)

/-- Claim C1 is refuted by the code — and the code contradicts its own
documentation ("Specific LOD indices to extract"), so this is a code bug:
requesting LOD index 1 on the two-LOD container makes the session decode only
the *first* record in the file (`process_lod` always reads from the current
cursor position; no preceding records are skipped over), and emit its mesh as
`lod_1.obj`.  The emitted file contains record 0's vertex line
`v 1.000000 2.000000 -1.000000`, not record 1's line
`v 2.000000 2.000000 2.000000`. -/
theorem c1_sequential_decode_bug :
    (parseMdlFile demoDec fileBytes2 (some [1]) "out" true).files
        = [OutFile.objFile "out/lod_1.obj" (objLines 1 [(1, 2, -1)] [(1, 1, 1)])]
    ∧ "v 1.000000 2.000000 -1.000000" ∈ objLines 1 [(1, 2, -1)] [(1, 1, 1)]
    ∧ "v 2.000000 2.000000 2.000000" ∉ objLines 1 [(1, 2, -1)] [(1, 1, 1)] := by
  decide

/-- Claim C8 (confirmed): the synthetic one-LOD container whose geometry blob
decompresses to 4 filler bytes + the int16 triple `(256, 512, -256)` + 10
filler bytes and whose face blob decompresses to the 6 bytes encoding
`(0, 0, 0)` produces an OBJ file containing the lines
`v 1.000000 2.000000 -1.000000` and `f 1 1 1`. -/
theorem c8_end_to_end :
    (parseMdlFile demoDec fileBytes1 none "out" true).files
        = [OutFile.objFile "out/lod_0.obj" (objLines 0 [(1, 2, -1)] [(1, 1, 1)])]
    ∧ (parseMdlFile demoDec fileBytes1 none "out" true).result = .ok
    ∧ "v 1.000000 2.000000 -1.000000" ∈ objLines 0 [(1, 2, -1)] [(1, 1, 1)]
    ∧ "f 1 1 1" ∈ objLines 0 [(1, 2, -1)] [(1, 1, 1)] := by
  decide

/-- Claim C9, counterexample: requesting LOD indices `{-1, 0, 5}` on the
two-LOD container is *observationally identical* to requesting `{0}` — same
files, same log, same result — so no diagnostic noting the discarded entries
`-1` and `5` is produced (the filtering at src/mdl_tool.py line 57 has no
logger call); the full log of the session is listed explicitly and contains
nothing about the discarded entries. -/
theorem c9_counterexample :
    parseMdlFile demoDec fileBytes2 (some [-1, 0, 5]) "out" true
      = parseMdlFile demoDec fileBytes2 (some [0]) "out" true
    ∧ (parseMdlFile demoDec fileBytes2 (some [-1, 0, 5]) "out" true).log
        = [.headerInfo (mkHeader 2), .processingLod 0 1 1, .extractedVertices 1,
           .extractedFaces 1, .savedObj "out/lod_0.obj", .processingComplete] := by
  decide

/-- Claim C9 as amended: indices outside `[0, lod_count)` are filtered out
*silently* (the session is identical to one requesting only the filtered
selection — no diagnostic mentions the discarded entries), and the session
raises `MDLParseError` ("no valid LOD indices") exactly when the filtered
selection becomes empty. -/
theorem c9_amended (dec : Bytes → Option Bytes) (fileBytes : Bytes) (dir : String)
    (skipBinary : Bool) (l : List ℤ) (h : Header) (rest : Bytes)
    (hhead : parseHeader fileBytes = some (h, rest)) :
    ((parseMdlFile dec fileBytes (some l) dir skipBinary).result
        = .raised (.noValidLodIndices h.lod_count)
      ↔ l.filter (fun i => decide (0 ≤ i) && decide (i < h.lod_count)) = [])
    ∧ (l.filter (fun i => decide (0 ≤ i) && decide (i < h.lod_count)) ≠ [] →
        parseMdlFile dec fileBytes (some l) dir skipBinary
          = parseMdlFile dec fileBytes
              (some (l.filter (fun i => decide (0 ≤ i) && decide (i < h.lod_count))))
              dir skipBinary) := by
  by_cases hf : l.filter (fun i => decide (0 ≤ i) && decide (i < h.lod_count)) = []
  · constructor
    · simp only [parseMdlFile, hhead, hf, List.isEmpty_nil, if_true]
    · intro hc
      exact absurd hf hc
  · have hne : (l.filter (fun i => decide (0 ≤ i) && decide (i < h.lod_count))).isEmpty
        = false := by
      simp [List.isEmpty_iff, hf]
    have hpp : (l.filter (fun i => decide (0 ≤ i) && decide (i < h.lod_count))).filter
          (fun i => decide (0 ≤ i) && decide (i < h.lod_count))
        = l.filter (fun i => decide (0 ≤ i) && decide (i < h.lod_count)) := by
      rw [List.filter_filter]
      simp [Bool.and_self]
    constructor
    · simp only [parseMdlFile, hhead, hne, Bool.false_eq_true, if_false, SessionOut.emit]
      constructor
      · intro hres
        exact absurd hres (processLods_no_invalid_selection dec dir skipBinary _ _ _ _ _)
      · intro hc
        exact absurd hc hf
    · intro _
      simp only [parseMdlFile, hhead, hpp, hne, Bool.false_eq_true, if_false]

set_option maxRecDepth 4000 in
/-- Claim C9, witness for the amended theorem: on the two-LOD container,
`{-1, 0, 5}` filters to `{0}` and the session equals the one requesting
`{0}`. -/
theorem c9_amended_witness :
    ([-1, 0, 5] : List ℤ).filter
        (fun i => decide (0 ≤ i) && decide (i < (mkHeader 2).lod_count)) = [0]
    ∧ parseMdlFile demoDec fileBytes2 (some [-1, 0, 5]) "out" true
        = parseMdlFile demoDec fileBytes2 (some [0]) "out" true := by
  constructor
  · decide
  · have h2 := (c9_amended demoDec fileBytes2 "out" true [-1, 0, 5] (mkHeader 2)
      (recBytes0 ++ recBytes1) (by decide)).2
    rw [show ([-1, 0, 5] : List ℤ).filter
        (fun i => decide (0 ≤ i) && decide (i < (mkHeader 2).lod_count)) = [0]
      from by decide] at h2
    exact h2 (by decide)
